import Mathlib

/-!
Shallow embedding of the chat surface in `src/components/ChatInterface.tsx`
(the second variant in that file, the one using `isTouchingRef`, which the
specification's line references target) together with the
`handleVisualViewportChange` handler of `src/unnamed/part_001`.

The geometry side models the `handleResize` handler: it copies the
platform-reported visual-viewport `height` and `offsetTop` onto the fixed
container's style and then performs the guarded scroll correction.  The
message side models `sendMessage` with its mock-response timeout and the
per-character streaming interval, over an explicit state record; timers are
kept as explicit handle lists so that firing and `clearInterval` become
ordinary state transitions.
-/

set_option maxRecDepth 8192

namespace Chat

/-- Geometry reported by the platform probe: the `vv.height` and
`vv.offsetTop` fields of `window.visualViewport` read in `handleResize`. -/
structure ViewportGeometry where
  visibleHeight : Int
  visibleOffset : Int
  deriving DecidableEq

/-- Scroll metrics destructured from the scroll container in `handleResize`:
`const { scrollTop, scrollHeight, clientHeight } = scrollAreaRef.current`. -/
structure ScrollMetrics where
  scrollTop : Int
  scrollHeight : Int
  clientHeight : Int
  deriving DecidableEq

/-- Layout state the handlers mutate: the container's applied style height
and vertical offset (`style.height` / the `translate3d` y-component), the
scroll metrics of the message area, whether the textarea is the active
element (`document.activeElement === textareaRef.current`) and the
`isTouchingRef` flag maintained by the `touchstart`/`touchend` listeners. -/
structure PanelState where
  height : Int
  offsetTop : Int
  scroll : ScrollMetrics
  focused : Bool
  touching : Bool
  deriving DecidableEq

/-- The pin tolerance used in `handleResize`:
`const isAtBottom = scrollHeight - scrollTop - clientHeight < 100`. -/
def PIN_THRESHOLD : Int := 100

/-- Steps 1 and 2 of `handleResize` (ChatInterface.tsx lines 290-297) and the
whole of `handleVisualViewportChange` body relevant to the panel
(part_001 lines 29-35): write the event's height and offset onto the
container's style. -/
def applyGeometry (g : ViewportGeometry) (p : PanelState) : PanelState :=
  { p with height := g.visibleHeight, offsetTop := g.visibleOffset }

/-- Step 3 of `handleResize` (ChatInterface.tsx lines 299-311): only when the
textarea is focused and the user is not touching, and the view is within the
pin tolerance of the bottom, set `scrollTop := scrollHeight`. -/
def reconcileScroll (p : PanelState) : PanelState :=
  if p.focused = true ∧ p.touching = false ∧
      p.scroll.scrollHeight - p.scroll.scrollTop - p.scroll.clientHeight < PIN_THRESHOLD then
    { p with scroll := { p.scroll with scrollTop := p.scroll.scrollHeight } }
  else
    p

/-- The `handleResize` handler of ChatInterface.tsx (lines 285-312): apply the
event's geometry, then run the guarded scroll correction. -/
def handleResize (g : ViewportGeometry) (p : PanelState) : PanelState :=
  reconcileScroll (applyGeometry g p)

/-- The `handleVisualViewportChange` handler of `src/unnamed/part_001`
(lines 24-39): it writes the event's height and offset and has no scroll
correction (its `window.scrollTo(0, 0)` acts on the document, not on the
panel fields modelled here). -/
def handleVisualViewportChange (g : ViewportGeometry) (p : PanelState) : PanelState :=
  applyGeometry g p

/-- The scroll-management effect of ChatInterface.tsx (lines 368-373): on
every change of `messages` or `isStreaming` set
`scrollTop := scrollHeight`, unconditionally.  The delayed scroll in
`handleFocus` (lines 359-361) performs the same unconditional write. -/
def scrollOnMessagesEffect (p : PanelState) : PanelState :=
  { p with scroll := { p.scroll with scrollTop := p.scroll.scrollHeight } }

/-- Handling a sequence of geometry events, one `handleResize` call each. -/
def applyEvents (p : PanelState) : List ViewportGeometry → PanelState
  | [] => p
  | g :: gs => applyEvents (handleResize g p) gs

theorem reconcileScroll_height (p : PanelState) :
    (reconcileScroll p).height = p.height := by
  rw [reconcileScroll]; split <;> rfl

theorem reconcileScroll_offsetTop (p : PanelState) :
    (reconcileScroll p).offsetTop = p.offsetTop := by
  rw [reconcileScroll]; split <;> rfl

theorem handleResize_height (g : ViewportGeometry) (p : PanelState) :
    (handleResize g p).height = g.visibleHeight := by
  rw [handleResize, reconcileScroll_height]; rfl

theorem handleResize_offsetTop (g : ViewportGeometry) (p : PanelState) :
    (handleResize g p).offsetTop = g.visibleOffset := by
  rw [handleResize, reconcileScroll_offsetTop]; rfl

theorem applyEvents_append (p : PanelState) (xs ys : List ViewportGeometry) :
    applyEvents p (xs ++ ys) = applyEvents (applyEvents p xs) ys := by
  induction xs generalizing p with
  | nil => rfl
  | cons x xs ih => simp [applyEvents, ih]

theorem reconcileScroll_idem (p : PanelState) :
    reconcileScroll (reconcileScroll p) = reconcileScroll p := by
  obtain ⟨h, o, ⟨st, sh, ch⟩, f, t⟩ := p
  simp only [reconcileScroll]
  split_ifs <;> simp_all

theorem applyGeometry_reconcileScroll (g : ViewportGeometry) (p : PanelState) :
    applyGeometry g (reconcileScroll p) = reconcileScroll (applyGeometry g p) := by
  obtain ⟨h, o, ⟨st, sh, ch⟩, f, t⟩ := p
  simp only [reconcileScroll, applyGeometry]
  split_ifs <;> rfl

theorem handleResize_idem (g : ViewportGeometry) (p : PanelState) :
    handleResize g (handleResize g p) = handleResize g p := by
  show reconcileScroll (applyGeometry g (reconcileScroll (applyGeometry g p)))
      = reconcileScroll (applyGeometry g p)
  rw [applyGeometry_reconcileScroll]
  have hgg : applyGeometry g (applyGeometry g p) = applyGeometry g p := rfl
  rw [hgg, reconcileScroll_idem]

/-- C1 (amended): a geometry-event reconciliation (`handleResize`, the
`force:false` path) leaves the scroll metrics completely unchanged whenever
the gesture tracker reports the user touching, for any distance from the
bottom. -/
theorem handleResize_touching_leaves_scroll (g : ViewportGeometry) (p : PanelState)
    (htouch : p.touching = true) : (handleResize g p).scroll = p.scroll := by
  rw [handleResize, reconcileScroll]
  rw [if_neg]
  · rfl
  · intro hc
    rw [show (applyGeometry g p).touching = p.touching from rfl, htouch] at hc
    exact absurd hc.2.1 (by simp)

theorem handleResize_touching_leaves_scroll_witness :
    (handleResize ⟨500, 300⟩ ⟨800, 0, ⟨100, 2000, 500⟩, true, true⟩).scroll
      = ⟨100, 2000, 500⟩ :=
  handleResize_touching_leaves_scroll ⟨500, 300⟩ ⟨800, 0, ⟨100, 2000, 500⟩, true, true⟩ rfl

/-- C1 counterexample: a reconciliation triggered by a message-store change
(the effect on `[messages, isStreaming]`) moves the scroll position even
while the user is actively touching, so the claim as stated — covering the
message-store-triggered reconciliations — is false of the code. -/
theorem scrollOnMessagesEffect_moves_scroll_while_touching :
    (scrollOnMessagesEffect ⟨600, 0, ⟨100, 2000, 500⟩, true, true⟩).scroll.scrollTop ≠
      (⟨600, 0, ⟨100, 2000, 500⟩, true, true⟩ : PanelState).scroll.scrollTop := by
  decide

/-- C2 counterexample: with the textarea not focused, a geometry-event
reconciliation with the view pinned (distance 50 < 100) and the gesture
inactive does not set the scroll position to the content extent: the code's
scroll correction additionally requires the textarea to be focused. -/
theorem handleResize_unfocused_pinned_no_jump :
    (handleResize ⟨640, 0⟩ ⟨800, 0, ⟨860, 1000, 90⟩, false, false⟩).scroll.scrollTop ≠ 1000 := by
  decide

/-- C2 (amended): when additionally the textarea is focused — a condition the
code imposes on the geometry path — a reconciliation with the view within the
pin threshold and the gesture inactive sets `scrollTop` to `scrollHeight`
exactly; and the forced reconciliations (the message-change effect and the
focus-delayed scroll) set it unconditionally. -/
theorem reconcile_pinned_inactive_jumps (g : ViewportGeometry) (p : PanelState)
    (hfoc : p.focused = true) (htouch : p.touching = false)
    (hpin : p.scroll.scrollHeight - p.scroll.scrollTop - p.scroll.clientHeight < PIN_THRESHOLD) :
    (handleResize g p).scroll.scrollTop = p.scroll.scrollHeight ∧
    ∀ q : PanelState, (scrollOnMessagesEffect q).scroll.scrollTop = q.scroll.scrollHeight := by
  refine ⟨?_, fun q => rfl⟩
  rw [handleResize, reconcileScroll, if_pos]
  · rfl
  · exact ⟨hfoc, htouch, hpin⟩

theorem reconcile_pinned_inactive_jumps_witness :
    (handleResize ⟨640, 20⟩ ⟨800, 0, ⟨860, 1000, 90⟩, true, false⟩).scroll.scrollTop = 1000 :=
  (reconcile_pinned_inactive_jumps ⟨640, 20⟩ ⟨800, 0, ⟨860, 1000, 90⟩, true, false⟩
    rfl rfl (by decide)).1

/-- C6: after any geometry event (with any prior event history) the panel's
applied height equals that event's `visibleHeight` and the applied offset
equals its `visibleOffset`; both facts hold of the single post-handler state,
which is the only observable point in the single-threaded event model, so the
applied pair is never a mix of two different events.  The same holds of
part_001's `handleVisualViewportChange`. -/
theorem applied_geometry_matches_last_event (p : PanelState)
    (gs : List ViewportGeometry) (g : ViewportGeometry) :
    (applyEvents p (gs ++ [g])).height = g.visibleHeight ∧
    (applyEvents p (gs ++ [g])).offsetTop = g.visibleOffset ∧
    (handleVisualViewportChange g p).height = g.visibleHeight ∧
    (handleVisualViewportChange g p).offsetTop = g.visibleOffset := by
  rw [applyEvents_append]
  exact ⟨handleResize_height g _, handleResize_offsetTop g _, rfl, rfl⟩

/-- C7 counterexample: from a pinned (distance 30 < 100), gesture-inactive
state whose textarea is not focused, a geometry event reporting a reduced
height (720 → 420) does not make the scroll jump to the new bottom, contrary
to the claim, because the code's scroll correction also requires focus. -/
theorem geometry_event_pinned_unfocused_no_jump :
    (handleResize ⟨420, 60⟩ ⟨720, 0, ⟨810, 900, 60⟩, false, false⟩).scroll.scrollTop ≠
      (handleResize ⟨420, 60⟩ ⟨720, 0, ⟨810, 900, 60⟩, false, false⟩).scroll.scrollHeight := by
  decide

/-- C7 (amended): when the view is pinned, the gesture inactive and — as the
code requires — the textarea focused, one geometry event jumps the scroll to
the bottom and applies the event's height and offset; and re-processing the
identical event changes nothing (idempotence, which in fact holds for every
state). -/
theorem geometry_event_jump_and_idem (g : ViewportGeometry) (p : PanelState)
    (hfoc : p.focused = true) (htouch : p.touching = false)
    (hpin : p.scroll.scrollHeight - p.scroll.scrollTop - p.scroll.clientHeight < PIN_THRESHOLD) :
    (handleResize g p).scroll.scrollTop = p.scroll.scrollHeight ∧
    (handleResize g p).height = g.visibleHeight ∧
    (handleResize g p).offsetTop = g.visibleOffset ∧
    handleResize g (handleResize g p) = handleResize g p := by
  refine ⟨?_, handleResize_height g p, handleResize_offsetTop g p, handleResize_idem g p⟩
  rw [handleResize, reconcileScroll, if_pos]
  · rfl
  · exact ⟨hfoc, htouch, hpin⟩

theorem geometry_event_jump_and_idem_witness :
    (handleResize ⟨420, 60⟩ ⟨720, 0, ⟨810, 900, 60⟩, true, false⟩).scroll.scrollTop = 900 :=
  (geometry_event_jump_and_idem ⟨420, 60⟩ ⟨720, 0, ⟨810, 900, 60⟩, true, false⟩
    rfl rfl (by decide)).1

/-- Message roles, from `src/types.ts`: `type Role = 'user' | 'agent'`. -/
inductive Role
  | user
  | agent
  deriving DecidableEq

/-- A chat message, from `src/types.ts`.  The source produces ids with
`Date.now().toString()`; the model issues them from a strictly increasing
counter, capturing the freshness the source relies on. -/
structure Message where
  id : Nat
  role : Role
  content : String
  deriving DecidableEq

/-- A scheduled mock-response timeout: the `setTimeout(..., 600)` of
`sendMessage`, identified by the handle the platform returns. -/
structure PendingResponse where
  handle : Nat
  deriving DecidableEq

/-- A running streaming interval: the `setInterval(..., 30)` of
`sendMessage`, with its handle, the captured `agentMsgId`, the captured
`responseText` and the closure counter `i`. -/
structure ActiveStream where
  handle : Nat
  targetId : Nat
  text : String
  i : Nat
  deriving DecidableEq

/-- The component state that `sendMessage` and its timers read and write:
the `messages` and `input` React state, the `isStreaming` flag, and the
timer bookkeeping (pending mock responses, running intervals) with
fresh-id and fresh-handle counters. -/
structure ChatState where
  messages : List Message
  input : String
  isStreaming : Bool
  nextId : Nat
  nextHandle : Nat
  timeouts : List PendingResponse
  intervals : List ActiveStream
  deriving DecidableEq

/-- The canned `responseText` of `sendMessage` in ChatInterface.tsx. -/
def responseText : String :=
  "Here is a smooth, non-janky response that streams in without breaking your layout. Notice how the keyboard interactions on mobile should feel much more native now."

/-- JavaScript `String.prototype.charAt`: the one-character string at index
`i`, or the empty string out of range. -/
def charAt (t : String) (i : Nat) : String :=
  match t.data[i]? with
  | some c => String.singleton c
  | none => ""

/-- The first `n` characters of `t`. -/
def strTake (t : String) (n : Nat) : String :=
  ⟨t.data.take n⟩

/-- The guard `!input.trim()` of `sendMessage`: JavaScript `trim()` returns
the empty string exactly when every character of the string is whitespace
(including the empty string), and `!s` on a string tests emptiness, so the
guard holds iff the input is empty or all-whitespace. -/
def isBlank (s : String) : Bool :=
  s.data.all (fun c => c.isWhitespace)

/-- The synchronous part of `sendMessage` (ChatInterface.tsx lines 376-391):
reject blank input (`if (!input.trim()) return`), append the user message
(content is the untrimmed input), clear the input, set `isStreaming`, and
schedule the mock-response timeout.  The textarea height/focus side effects
touch no modelled state. -/
def sendMessage (s : ChatState) : ChatState :=
  if isBlank s.input then s
  else
    { s with
      messages := s.messages ++ [⟨s.nextId, Role.user, s.input⟩],
      input := "",
      isStreaming := true,
      nextId := s.nextId + 1,
      nextHandle := s.nextHandle + 1,
      timeouts := s.timeouts ++ [⟨s.nextHandle⟩] }

/-- The mock-response timeout body (ChatInterface.tsx lines 394-413): if
timeout `h` is still pending, consume it, append the empty agent message
(`{ id: agentMsgId, role: 'agent', content: '' }`) and install the streaming
interval with counter `i = 0`. -/
def fireTimeout (s : ChatState) (h : Nat) : ChatState :=
  if PendingResponse.mk h ∈ s.timeouts then
    { s with
      timeouts := s.timeouts.filter (fun t => t.handle != h),
      messages := s.messages ++ [⟨s.nextId, Role.agent, ""⟩],
      nextId := s.nextId + 1,
      intervals := s.intervals ++ [⟨s.nextHandle, s.nextId, responseText, 0⟩],
      nextHandle := s.nextHandle + 1 }
  else s

/-- The per-tick map over the store (ChatInterface.tsx lines 402-406):
`prev.map(msg => msg.id === agentMsgId ? { ...msg, content: msg.content +
responseText.charAt(i) } : msg)`. -/
def appendToTarget (target : Nat) (c : String) (msgs : List Message) : List Message :=
  msgs.map fun m => if m.id = target then { m with content := m.content ++ c } else m

/-- One firing of streaming interval `h` (ChatInterface.tsx lines 401-412):
if the interval is installed, append `charAt text i` to the target message,
increment `i`, and once `i >= text.length` clear the interval and set
`isStreaming := false`.  A cleared or unknown handle fires nothing. -/
def tick (s : ChatState) (h : Nat) : ChatState :=
  match s.intervals.find? (fun st => st.handle == h) with
  | none => s
  | some st =>
    let msgs := appendToTarget st.targetId (charAt st.text st.i) s.messages
    if st.i + 1 ≥ st.text.length then
      { s with
        messages := msgs,
        intervals := s.intervals.filter (fun t => t.handle != h),
        isStreaming := false }
    else
      { s with
        messages := msgs,
        intervals := s.intervals.map fun t => if t.handle = h then { t with i := st.i + 1 } else t }

/-- `clearInterval` on handle `h`, the cancellation primitive the source
uses (ChatInterface.tsx line 409): deinstall the interval; on a handle that
is not installed it changes nothing. -/
def cancel (s : ChatState) (h : Nat) : ChatState :=
  { s with intervals := s.intervals.filter (fun t => t.handle != h) }

/-- `n` consecutive firings of interval `h`. -/
def run (s : ChatState) (h : Nat) : Nat → ChatState
  | 0 => s
  | n + 1 => tick (run s h n) h

/-- Content of the message with id `target`, if present (first match). -/
def contentOf (msgs : List Message) (target : Nat) : Option String :=
  (msgs.find? (fun m => m.id == target)).map (fun m => m.content)

theorem strTake_zero (t : String) : strTake t 0 = "" := rfl

theorem strTake_full (t : String) : strTake t t.length = t := by
  cases t with
  | mk data => simp [strTake, String.length]

theorem strTake_succ (t : String) (n : Nat) (hn : n < t.length) :
    strTake t (n + 1) = strTake t n ++ charAt t n := by
  cases t with
  | mk data =>
    have hn' : n < data.length := hn
    obtain ⟨c, hc⟩ : ∃ c, data[n]? = some c := ⟨data[n], List.getElem?_eq_getElem hn'⟩
    show (⟨data.take (n + 1)⟩ : String) = ⟨data.take n⟩ ++ charAt ⟨data⟩ n
    rw [charAt]
    show (⟨data.take (n + 1)⟩ : String) = ⟨data.take n⟩ ++ (match data[n]? with
      | some c => String.singleton c
      | none => "")
    rw [hc]
    show (⟨data.take (n + 1)⟩ : String) = ⟨data.take n ++ [c]⟩
    rw [List.take_succ, hc]
    rfl

theorem find?_append_of_target (pre post : List Message) (m : Message) (target : Nat)
    (hpre : ∀ x ∈ pre, x.id ≠ target) (hm : m.id = target) :
    (pre ++ m :: post).find? (fun x => x.id == target) = some m := by
  induction pre with
  | nil => simp [hm]
  | cons a pre ih =>
    have ha : a.id ≠ target := hpre a (by simp)
    rw [List.cons_append, List.find?_cons_of_neg _ (by simp [ha])]
    exact ih (fun x hx => hpre x (by simp [hx]))

theorem map_id_of_mem {α : Type _} (f : α → α) (l : List α) (h : ∀ x ∈ l, f x = x) :
    l.map f = l := by
  induction l with
  | nil => rfl
  | cons a l ih =>
    simp only [List.map_cons, h a (by simp), ih (fun x hx => h x (by simp [hx]))]

theorem appendToTarget_split (pre post : List Message) (m : Message) (target : Nat)
    (c : String) (hpre : ∀ x ∈ pre, x.id ≠ target) (hpost : ∀ x ∈ post, x.id ≠ target)
    (hm : m.id = target) :
    appendToTarget target c (pre ++ m :: post)
      = pre ++ { m with content := m.content ++ c } :: post := by
  rw [appendToTarget, List.map_append, List.map_cons]
  rw [map_id_of_mem _ pre (fun x hx => if_neg (hpre x hx))]
  rw [map_id_of_mem _ post (fun x hx => if_neg (hpost x hx))]
  rw [if_pos hm]

/-- C9: `submit` with empty or whitespace-only text is a no-op, not an
error: `sendMessage` returns before touching any state. -/
theorem sendMessage_blank_noop (s : ChatState) (hblank : isBlank s.input = true) :
    sendMessage s = s := by
  rw [sendMessage, if_pos hblank]

theorem sendMessage_blank_noop_witness :
    sendMessage ⟨[⟨0, Role.user, "hi"⟩], "   ", true, 1, 1, [], []⟩
      = ⟨[⟨0, Role.user, "hi"⟩], "   ", true, 1, 1, [], []⟩ :=
  sendMessage_blank_noop _ (by decide)

/-- C4 is violated by the code: `sendMessage` has no single-active-stream
guard (`if (!input.trim()) return` is its only check, and the send button's
`disabled={!input.trim() && !isStreaming}` never disables a non-blank
submit), so a non-empty submit while a stream is active is not rejected: it
appends a new user message and schedules a second mock response, whose
timeout will start a second, interleaved stream. -/
theorem submit_while_streaming_starts_new_stream :
    sendMessage ⟨[⟨0, Role.user, "hi"⟩, ⟨1, Role.agent, "He"⟩], "again", true, 2, 2, [],
        [⟨0, 1, "Hello there", 2⟩]⟩
      ≠ ⟨[⟨0, Role.user, "hi"⟩, ⟨1, Role.agent, "He"⟩], "again", true, 2, 2, [],
        [⟨0, 1, "Hello there", 2⟩]⟩ ∧
    (sendMessage ⟨[⟨0, Role.user, "hi"⟩, ⟨1, Role.agent, "He"⟩], "again", true, 2, 2, [],
        [⟨0, 1, "Hello there", 2⟩]⟩).timeouts = [⟨2⟩] ∧
    (sendMessage ⟨[⟨0, Role.user, "hi"⟩, ⟨1, Role.agent, "He"⟩], "again", true, 2, 2, [],
        [⟨0, 1, "Hello there", 2⟩]⟩).messages
      = [⟨0, Role.user, "hi"⟩, ⟨1, Role.agent, "He"⟩, ⟨2, Role.user, "again"⟩] ∧
    (sendMessage ⟨[⟨0, Role.user, "hi"⟩, ⟨1, Role.agent, "He"⟩], "again", true, 2, 2, [],
        [⟨0, 1, "Hello there", 2⟩]⟩).intervals = [⟨0, 1, "Hello there", 2⟩] := by
  decide

/-- C5: after `cancel` (the source's `clearInterval`) of a stream handle,
the message store is not touched by the cancellation itself, no later firing
of that handle mutates anything (content stops growing permanently), and
cancelling a handle that is completed or unknown — one with no installed
interval — leaves the whole state unchanged. -/
theorem cancel_no_further_mutation (s : ChatState) (h : Nat) :
    (cancel s h).messages = s.messages ∧
    (∀ n, run (cancel s h) h n = cancel s h) ∧
    ((∀ st ∈ s.intervals, st.handle ≠ h) → cancel s h = s) := by
  refine ⟨rfl, ?_, ?_⟩
  · have hnone : (cancel s h).intervals.find? (fun st => st.handle == h) = none := by
      rw [cancel]
      refine List.find?_eq_none.mpr ?_
      intro st hst
      have := (List.mem_filter.mp hst).2
      simpa using this
    intro n
    induction n with
    | zero => rfl
    | succ n ih =>
      rw [run, ih, tick, hnone]
  · intro hnot
    rw [cancel]
    rw [List.filter_eq_self.mpr (fun st hst => by simpa using hnot st hst)]

theorem cancel_no_further_mutation_witness :
    cancel ⟨[⟨1, Role.agent, "done"⟩], "", false, 2, 9, [], []⟩ 3
      = ⟨[⟨1, Role.agent, "done"⟩], "", false, 2, 9, [], []⟩ :=
  (cancel_no_further_mutation ⟨[⟨1, Role.agent, "done"⟩], "", false, 2, 9, [], []⟩ 3).2.2
    (by simp)

theorem run_spec (pre post : List Message) (target h : Nat) (text : String)
    (s : ChatState)
    (hpre : ∀ x ∈ pre, x.id ≠ target) (hpost : ∀ x ∈ post, x.id ≠ target)
    (hm : s.messages = pre ++ ⟨target, Role.agent, ""⟩ :: post)
    (hi : s.intervals = [⟨h, target, text, 0⟩]) :
    ∀ n, n ≤ text.length →
      (run s h n).messages = pre ++ ⟨target, Role.agent, strTake text n⟩ :: post ∧
      (run s h n).timeouts = s.timeouts ∧
      (run s h n).input = s.input ∧
      (n < text.length →
        (run s h n).intervals = [⟨h, target, text, n⟩] ∧
        (run s h n).isStreaming = s.isStreaming) ∧
      (n = text.length → 0 < text.length →
        (run s h n).intervals = [] ∧ (run s h n).isStreaming = false) := by
  intro n
  induction n with
  | zero =>
    intro _
    refine ⟨?_, rfl, rfl, ?_, ?_⟩
    · rw [show run s h 0 = s from rfl, hm, strTake_zero]
    · intro _
      exact ⟨hi, rfl⟩
    · intro h0 hpos
      omega
  | succ n ih =>
    intro hle
    have hn : n < text.length := hle
    obtain ⟨hmsg, hto, hin, hstream, -⟩ := ih (Nat.le_of_lt hn)
    obtain ⟨hint, hstr⟩ := hstream hn
    have hfind : (run s h n).intervals.find? (fun st => st.handle == h)
        = some ⟨h, target, text, n⟩ := by
      rw [hint]
      simp
    have hrun : run s h (n + 1) = tick (run s h n) h := rfl
    rw [hrun]
    simp only [tick, hfind]
    split
    next hend =>
      have hn1 : n + 1 = text.length := by
        revert hend
        simp only [ge_iff_le]
        omega
      refine ⟨?_, hto, hin, ?_, ?_⟩
      · rw [hmsg, appendToTarget_split pre post _ target _ hpre hpost rfl,
          ← strTake_succ text n hn]
      · intro hlt
        omega
      · intro _ _
        refine ⟨?_, rfl⟩
        rw [hint]
        simp
    next hend =>
      have hn1 : n + 1 < text.length := by
        revert hend
        simp only [ge_iff_le]
        omega
      refine ⟨?_, hto, hin, ?_, ?_⟩
      · rw [hmsg, appendToTarget_split pre post _ target _ hpre hpost rfl,
          ← strTake_succ text n hn]
      · intro _
        refine ⟨?_, hstr⟩
        rw [hint]
        simp
      · intro heq _
        omega

/-- C3: for every stream of a source text `text` over a store in which the
target agent message starts empty and its id is unique, after `n` ticks the
target's content is exactly the first `n` characters of `text` (one
character per tick, in order, each appended once); in particular when the
tick counter reaches `text.length` — the completed state — the content
equals the full source text. -/
theorem stream_final_content (pre post : List Message) (target h : Nat) (text : String)
    (s : ChatState)
    (hpre : ∀ x ∈ pre, x.id ≠ target) (hpost : ∀ x ∈ post, x.id ≠ target)
    (hm : s.messages = pre ++ ⟨target, Role.agent, ""⟩ :: post)
    (hi : s.intervals = [⟨h, target, text, 0⟩]) :
    (∀ n, n ≤ text.length →
      contentOf (run s h n).messages target = some (strTake text n)) ∧
    contentOf (run s h text.length).messages target = some text := by
  have key := run_spec pre post target h text s hpre hpost hm hi
  have hc : ∀ n, n ≤ text.length →
      contentOf (run s h n).messages target = some (strTake text n) := by
    intro n hn
    obtain ⟨hmsg, -, -, -, -⟩ := key n hn
    rw [contentOf, hmsg, find?_append_of_target pre post _ target hpre rfl]
    rfl
  refine ⟨hc, ?_⟩
  have hlast := hc text.length le_rfl
  rwa [strTake_full] at hlast

theorem stream_final_content_witness :
    contentOf (run ⟨[⟨1, Role.agent, ""⟩], "", true, 2, 8, [], [⟨7, 1, "ab", 0⟩]⟩ 7
      ("ab").length).messages 1 = some "ab" :=
  (stream_final_content [] [] 1 7 "ab"
    ⟨[⟨1, Role.agent, ""⟩], "", true, 2, 8, [], [⟨7, 1, "ab", 0⟩]⟩
    (by simp) (by simp) rfl rfl).2

/-- C10: after a non-empty submit from a quiescent state (no pending
response, no running interval, all existing ids below the fresh counter),
`isStreaming` is set to true immediately — when the only store change is the
user message and no agent message exists yet, so it holds throughout the
mock delay — it is still true when the mock-response timeout fires and after
every tick before the last, and it becomes false exactly on the tick that
appends the final character of `responseText`, at which point the agent
message carries the whole text. -/
theorem streaming_flag_lifecycle (s0 : ChatState)
    (hin : isBlank s0.input = false) (hto : s0.timeouts = []) (hiv : s0.intervals = [])
    (hfresh : ∀ m ∈ s0.messages, m.id < s0.nextId) :
    (sendMessage s0).isStreaming = true ∧
    (sendMessage s0).messages = s0.messages ++ [⟨s0.nextId, Role.user, s0.input⟩] ∧
    (fireTimeout (sendMessage s0) s0.nextHandle).isStreaming = true ∧
    (∀ n, n < responseText.length →
      (run (fireTimeout (sendMessage s0) s0.nextHandle) (s0.nextHandle + 1) n).isStreaming
        = true) ∧
    (run (fireTimeout (sendMessage s0) s0.nextHandle) (s0.nextHandle + 1)
        responseText.length).isStreaming = false ∧
    contentOf (run (fireTimeout (sendMessage s0) s0.nextHandle) (s0.nextHandle + 1)
        responseText.length).messages (s0.nextId + 1) = some responseText := by
  have hs1 : sendMessage s0 = { s0 with
      messages := s0.messages ++ [⟨s0.nextId, Role.user, s0.input⟩],
      input := "", isStreaming := true, nextId := s0.nextId + 1,
      nextHandle := s0.nextHandle + 1, timeouts := s0.timeouts ++ [⟨s0.nextHandle⟩] } := by
    rw [sendMessage, if_neg (by simp [hin])]
  have hs2 : fireTimeout (sendMessage s0) s0.nextHandle = { s0 with
      messages := (s0.messages ++ [⟨s0.nextId, Role.user, s0.input⟩])
        ++ [⟨s0.nextId + 1, Role.agent, ""⟩],
      input := "", isStreaming := true,
      nextId := s0.nextId + 1 + 1,
      nextHandle := s0.nextHandle + 1 + 1,
      timeouts := [],
      intervals := [⟨s0.nextHandle + 1, s0.nextId + 1, responseText, 0⟩] } := by
    rw [hs1, fireTimeout, if_pos (by simp [hto])]
    simp [hto, hiv]
  have husr : ∀ x ∈ s0.messages ++ [(⟨s0.nextId, Role.user, s0.input⟩ : Message)],
      x.id ≠ s0.nextId + 1 := by
    intro x hx
    rcases List.mem_append.mp hx with hx | hx
    · have := hfresh x hx
      omega
    · have hx' : x = ⟨s0.nextId, Role.user, s0.input⟩ := by simpa using hx
      rw [hx']
      show s0.nextId ≠ s0.nextId + 1
      omega
  have key := run_spec (s0.messages ++ [⟨s0.nextId, Role.user, s0.input⟩]) []
      (s0.nextId + 1) (s0.nextHandle + 1) responseText
      (fireTimeout (sendMessage s0) s0.nextHandle)
      husr (by simp) (by rw [hs2]) (by rw [hs2])
  have hL : 0 < responseText.length := by decide
  refine ⟨by rw [hs1], by rw [hs1], by rw [hs2], ?_, ?_, ?_⟩
  · intro n hn
    have hh := ((key n (Nat.le_of_lt hn)).2.2.2.1 hn).2
    rw [hh, hs2]
  · exact ((key responseText.length le_rfl).2.2.2.2 rfl hL).2
  · obtain ⟨hmsg, -, -, -, -⟩ := key responseText.length le_rfl
    rw [contentOf, hmsg, find?_append_of_target _ _ _ _ husr rfl]
    simp [strTake_full]

theorem streaming_flag_lifecycle_witness :
    (sendMessage ⟨[], "hi", false, 0, 0, [], []⟩).isStreaming = true :=
  (streaming_flag_lifecycle ⟨[], "hi", false, 0, 0, [], []⟩ (by decide) rfl rfl
    (by simp)).1

theorem tick_messages (s : ChatState) (k : Nat) :
    (tick s k).messages
      = match s.intervals.find? (fun st => st.handle == k) with
        | none => s.messages
        | some st => appendToTarget st.targetId (charAt st.text st.i) s.messages := by
  rw [tick]
  cases s.intervals.find? (fun st => st.handle == k) with
  | none => rfl
  | some st =>
    dsimp only
    split <;> rfl

theorem countP_zip_self (l : List Message) :
    (l.zip l).countP (fun p => p.1 != p.2) = 0 := by
  induction l with
  | nil => rfl
  | cons a l ih => simp [List.zip_cons_cons, List.countP_cons, ih]

theorem countP_zip_self_map (f : Message → Message) (l : List Message) :
    ((l.map f).zip l).countP (fun p => p.1 != p.2) = l.countP (fun a => f a != a) := by
  induction l with
  | nil => rfl
  | cons a l ih =>
    simp only [List.map_cons, List.zip_cons_cons, List.countP_cons, ih]

theorem countP_id_le_one (target : Nat) (msgs : List Message)
    (huniq : msgs.Pairwise (fun a b => a.id ≠ b.id)) :
    msgs.countP (fun m => m.id == target) ≤ 1 := by
  induction msgs with
  | nil => simp
  | cons a l ih =>
    rw [List.pairwise_cons] at huniq
    by_cases ha : a.id = target
    · have hz : l.countP (fun m => m.id == target) = 0 := by
        refine List.countP_eq_zero.mpr ?_
        intro m hm
        simp only [beq_iff_eq]
        intro hmt
        exact (huniq.1 m hm) (by rw [ha, hmt])
      rw [List.countP_cons]
      simp [ha, hz]
    · rw [List.countP_cons]
      simp [ha, ih huniq.2]

theorem countP_changed_le (target : Nat) (c : String) (msgs : List Message) :
    msgs.countP
        (fun m => (if m.id = target then { m with content := m.content ++ c } else m) != m)
      ≤ msgs.countP (fun m => m.id == target) := by
  refine List.countP_mono_left ?_
  intro m hm
  simp only [bne_iff_ne, ne_eq, beq_iff_eq]
  intro hne
  by_contra hid
  exact hne (by rw [if_neg hid])

/-- C8: the message store is append-only: `sendMessage` and the stream start
(`fireTimeout`) only ever append to the list; a stream tick keeps the
length, every message's id, role and position, only extends contents (the
old content is an initial segment of the new one), and — given pairwise
distinct ids, which the fresh-id discipline guarantees — changes at most
one message. -/
theorem store_append_only (s : ChatState) (k : Nat)
    (huniq : s.messages.Pairwise (fun a b => a.id ≠ b.id)) :
    (∃ tl, (sendMessage s).messages = s.messages ++ tl) ∧
    (∃ tl, (fireTimeout s k).messages = s.messages ++ tl) ∧
    (tick s k).messages.length = s.messages.length ∧
    (∀ (j : Nat) (m m' : Message),
      s.messages[j]? = some m → (tick s k).messages[j]? = some m' →
      m'.id = m.id ∧ m'.role = m.role ∧
        ∃ t : List Char, m'.content.data = m.content.data ++ t) ∧
    ((tick s k).messages.zip s.messages).countP (fun p => p.1 != p.2) ≤ 1 := by
  refine ⟨?_, ?_, ?_, ?_, ?_⟩
  · rw [sendMessage]
    split
    · exact ⟨[], by simp⟩
    · exact ⟨[⟨s.nextId, Role.user, s.input⟩], rfl⟩
  · rw [fireTimeout]
    split
    · exact ⟨[⟨s.nextId, Role.agent, ""⟩], rfl⟩
    · exact ⟨[], by simp⟩
  · rw [tick_messages]
    cases s.intervals.find? (fun st => st.handle == k) with
    | none => rfl
    | some st => simp [appendToTarget]
  · intro j m m' hm hm'
    rw [tick_messages] at hm'
    cases hfind : s.intervals.find? (fun st => st.handle == k) with
    | none =>
      rw [hfind] at hm'
      have hmm : m' = m := by
        rw [hm] at hm'
        exact (Option.some.inj hm').symm
      subst hmm
      exact ⟨rfl, rfl, [], by simp⟩
    | some st =>
      rw [hfind] at hm'
      simp only [appendToTarget, List.getElem?_map, hm] at hm'
      have hm'' :
          (if m.id = st.targetId then { m with content := m.content ++ charAt st.text st.i }
            else m) = m' := by
        simpa using hm'
      subst hm''
      by_cases hid : m.id = st.targetId
      · rw [if_pos hid]
        exact ⟨rfl, rfl, (charAt st.text st.i).data, String.data_append _ _⟩
      · rw [if_neg hid]
        exact ⟨rfl, rfl, [], by simp⟩
  · rw [tick_messages]
    cases hfind : s.intervals.find? (fun st => st.handle == k) with
    | none => simp [countP_zip_self]
    | some st =>
      simp only [appendToTarget]
      rw [countP_zip_self_map]
      exact le_trans (countP_changed_le st.targetId (charAt st.text st.i) s.messages)
        (countP_id_le_one st.targetId s.messages huniq)

theorem store_append_only_witness :
    ∃ tl,
      (sendMessage
        ⟨[⟨0, Role.user, "a"⟩, ⟨1, Role.agent, "b"⟩], "x", true, 2, 2, [], []⟩).messages
        = [⟨0, Role.user, "a"⟩, ⟨1, Role.agent, "b"⟩] ++ tl :=
  (store_append_only
    ⟨[⟨0, Role.user, "a"⟩, ⟨1, Role.agent, "b"⟩], "x", true, 2, 2, [], []⟩ 0
    (by decide)).1

end Chat
